import Mathlib

/-!
Verification of the local-first synchronization logic of the yurutto
dashboard, shallowly embedded from `src/components/JournalModal.tsx` (the
journal widget, the only call site carrying the full engine: local cache,
debounced writes, timed two-stage fetch, failure classification,
retry/force-save) and `src/components/MonthlyTasks.tsx` (a plain
getDoc/setDoc call site, used for the refinement comparison).

Time is modelled in milliseconds as `Nat`; the `updatedAt` ISO timestamp of
a record is modelled as the numeric instant at which the record was built.
The single-threaded JS event loop is modelled as a discrete-event run: user
events carry timestamps, and the one pending `setTimeout` debounce timer
fires whenever its deadline falls at or before the next event (and at the
end of the run, running the trace to quiescence).
-/

namespace Yurutto

/-- One entry of `JournalEntry.tasks` in JournalModal.tsx. -/
structure JTask where
  id : String
  text : String
  completed : Bool
deriving DecidableEq, Repr

/-- The `JournalEntry` record of JournalModal.tsx (lines 13-17): diary text,
task list, and `updatedAt` (modelled as a numeric timestamp). -/
structure JournalEntry where
  diary : String
  tasks : List JTask
  updatedAt : Nat
deriving DecidableEq, Repr

/-- Kinds of remote (Firestore) failure, as classified by the
`isIgnorableError` checks of JournalModal.tsx: an offline error, the
`Timeout` rejection produced by `withTimeout`, or anything else. -/
inductive RemoteErr where
  | offline
  | timeout
  | otherErr
deriving DecidableEq, Repr

/-- Embeds `isIgnorableError` (JournalModal.tsx lines 142-143 and 184-185):
an error is ignorable when its message contains "offline" or equals
"Timeout". -/
def isIgnorableError : RemoteErr → Bool
  | .offline => true
  | .timeout => true
  | .otherErr => false

/-- Timing semantics of `withTimeout(promise, ms)` (JournalModal.tsx lines
24-31), which races the promise against a `setTimeout` rejection: given the
latency of the wrapped promise, returns the instant (relative to issuance)
at which the race settles, and whether the underlying result (rather than
the `Timeout` rejection) is delivered. -/
def withTimeout (latency ms : Nat) : Nat × Bool :=
  (min latency ms, decide (latency ≤ ms))

/-- Result of one Firestore document read (`getDocFromCache` or
`getDocFromServer`): a snapshot that exists with data, a snapshot that does
not exist, or a rejection. -/
inductive ReadResult where
  | found (data : JournalEntry)
  | missing
  | err (kind : RemoteErr)
deriving DecidableEq, Repr

/-- Boolean test for the `found` constructor. -/
def ReadResult.isFound : ReadResult → Bool
  | .found _ => true
  | _ => false

/-- Boolean test for the `err` constructor. -/
def ReadResult.isErr : ReadResult → Bool
  | .err _ => true
  | _ => false

/-- Environment of a run: whether `localStorage.setItem` succeeds (it can
throw, e.g. on quota exhaustion -- `saveToLocalCache` at lines 75-78 has no
try/catch), and the outcome of the remote `setDoc` issued at a given
instant (`none` meaning success; a put slower than the 3000 ms deadline is
delivered to the caller as `RemoteErr.timeout` by `withTimeout`). -/
structure Env where
  localPutOk : Bool
  putOutcome : Nat → Option RemoteErr

/-- Environment in which both the local store and the remote store always
succeed. -/
def envOk : Env := ⟨true, fun _ => none⟩

/-- The mutable state of the journal widget that the claims are about:
current time, the displayed diary and tasks (the `diary` / `tasks` React
state), the `loadFailed` and `hasUserEdited` flags, the `syncing` flag, the
single debounce timer `saveTimerRef` (fire instant plus the captured
payload), the local cache entry for the active key (parsed form of the
`localStorage` value), the trace of issued remote `setDoc` calls, the
console-error log of non-ignorable failures, and a flag recording that a
flush was aborted by a local-store throw (an unhandled rejection of the
async `saveJournal`). -/
structure SyncState where
  now : Nat
  diary : String
  tasks : List JTask
  loadFailed : Bool
  hasUserEdited : Bool
  syncing : Bool
  pendingTimer : Option (Nat × String × List JTask)
  localCache : Option JournalEntry
  remotePuts : List (Nat × JournalEntry)
  errorLog : List RemoteErr
  flushAborted : Bool
deriving DecidableEq, Repr

/-- Fresh state for a newly displayed key whose local cache holds `cache`
(the parsed `localStorage` entry; `none` on a missing key or malformed
content, since `loadFromLocalCache` at lines 60-72 returns null on parse
failure). -/
def initState (cache : Option JournalEntry) : SyncState :=
  { now := 0, diary := "", tasks := [], loadFailed := false,
    hasUserEdited := false, syncing := false, pendingTimer := none,
    localCache := cache, remotePuts := [], errorLog := [],
    flushAborted := false }

/-- Embeds `saveJournal(diaryText, taskList)` (JournalModal.tsx lines
163-192) at the moment the flush runs: the record is stamped with the
current time, written to the local cache by `saveToLocalCache` (line 174,
outside any try block, so a local-store throw rejects the whole async call
before the remote write is reached), and then `setDoc` is issued, wrapped
in `withTimeout(.., 3000)`; its failure is caught, non-ignorable errors
being logged (the `setSaving` toggles around the put are omitted -- they
net to false either way). -/
def saveJournal (env : Env) (s : SyncState) (diaryText : String)
    (taskList : List JTask) : SyncState :=
  let journalData : JournalEntry := ⟨diaryText, taskList, s.now⟩
  if env.localPutOk then
    { s with
      localCache := some journalData,
      remotePuts := s.remotePuts ++ [(s.now, journalData)],
      errorLog :=
        match env.putOutcome s.now with
        | none => s.errorLog
        | some e =>
            if isIgnorableError e then s.errorLog else s.errorLog ++ [e] }
  else
    { s with flushAborted := true }

/-- Embeds `triggerSave(newDiary, newTasks)` (lines 195-202): clears any
pending timer and arms a fresh 1000 ms timer capturing the given payload. -/
def triggerSave (s : SyncState) (newDiary : String)
    (newTasks : List JTask) : SyncState :=
  { s with pendingTimer := some (s.now + 1000, newDiary, newTasks) }

/-- Embeds `handleDiaryChange(newDiary)` (lines 205-211): updates the
display, marks the user edit, and -- unless `loadFailed` is set -- arms the
debounced save with the new diary and the current tasks. -/
def handleDiaryChange (s : SyncState) (newDiary : String) : SyncState :=
  let s1 := { s with diary := newDiary, hasUserEdited := true }
  if s1.loadFailed then s1 else triggerSave s1 newDiary s1.tasks

/-- Embeds `addTask` (lines 214-228): ignores blank input, otherwise
appends a fresh uncompleted task (its id drawn from the clock is taken as a
parameter) and arms the debounced save unless `loadFailed` is set. -/
def addTask (s : SyncState) (id text : String) : SyncState :=
  if text.trim = "" then s
  else
    let newTasks := s.tasks ++ [⟨id, text.trim, false⟩]
    let s1 := { s with tasks := newTasks, hasUserEdited := true }
    if s1.loadFailed then s1 else triggerSave s1 s1.diary newTasks

/-- Embeds `toggleTask(taskId)` (lines 231-240). -/
def toggleTask (s : SyncState) (taskId : String) : SyncState :=
  let newTasks := s.tasks.map fun task =>
    if task.id = taskId then { task with completed := !task.completed }
    else task
  let s1 := { s with tasks := newTasks, hasUserEdited := true }
  if s1.loadFailed then s1 else triggerSave s1 s1.diary newTasks

/-- Embeds `deleteTask(taskId)` (lines 243-250). -/
def deleteTask (s : SyncState) (taskId : String) : SyncState :=
  let newTasks := s.tasks.filter fun task => task.id ≠ taskId
  let s1 := { s with tasks := newTasks, hasUserEdited := true }
  if s1.loadFailed then s1 else triggerSave s1 s1.diary newTasks

/-- Embeds `forceSave` (lines 279-282): clears the failed-load flag and
then goes through the ordinary debounced `triggerSave` path with the
currently displayed content. -/
def forceSave (s : SyncState) : SyncState :=
  let s1 := { s with loadFailed := false }
  triggerSave s1 s1.diary s1.tasks

/-- Embeds the unmount cleanup effect (lines 314-320, dependency list
empty, so it runs only when the component unmounts): clears the pending
debounce timer. -/
def unmountCleanup (s : SyncState) : SyncState :=
  { s with pendingTimer := none }

/-- Embeds the synchronous part of the load effect (lines 81-106), run on
open or date change: the display is cleared along with the `loadFailed` and
`hasUserEdited` flags, then repainted from the new key's local cache entry
`cached` (the `loadFromLocalCache` result), and `syncing` is set. Returns
the updated state together with the `hasCache` flag. Note that lines 81-160
never touch `saveTimerRef`: a debounce timer pending for the previous key
survives this transition. -/
def loadEffectStart (s : SyncState) (cached : Option JournalEntry) :
    SyncState × Bool :=
  let s1 := { s with diary := "", tasks := [], loadFailed := false,
                     hasUserEdited := false }
  match cached with
  | some c =>
      ({ s1 with diary := c.diary, tasks := c.tasks, syncing := true }, true)
  | none => ({ s1 with syncing := true }, false)

/-- The effective result of the deadline-raced server read of the load
effect (line 130): `withTimeout(getDocFromServer(docRef), 3000)` delivers
the underlying result when its latency is within the deadline, and the
`Timeout` rejection otherwise. -/
def serverEffective (serverRes : ReadResult) (serverLatency : Nat) :
    ReadResult :=
  if serverLatency ≤ 3000 then serverRes else .err .timeout

/-- Embeds the async body of `loadJournal` (lines 109-157). `hasCache` is
the flag computed by the synchronous part of the effect; `replica` is the
`getDocFromCache` result (a rejection of that stage is swallowed, lines
124-126); the server read result `serverRes` with latency `serverLatency`
is raced against the 3000 ms deadline. In the catch block the `loadFailed`
flag is raised whenever neither the local cache nor a Firestore stage
delivered data -- whether or not the error was ignorable; ignorability only
suppresses the console log. Returns the settled state together with the
instant (relative to the server-read issuance) at which the raced server
stage settles. -/
def loadJournal (s : SyncState) (hasCache : Bool) (replica : ReadResult)
    (serverRes : ReadResult) (serverLatency : Nat) : SyncState × Nat :=
  let stage1 :=
    match replica with
    | .found data =>
        ({ s with diary := data.diary, tasks := data.tasks,
                  localCache := some data }, true)
    | .missing => (s, false)
    | .err _ => (s, false)
  let s1 := stage1.1
  let loadedFromFirestore := stage1.2
  let settle := (withTimeout serverLatency 3000).1
  let s2 :=
    match serverEffective serverRes serverLatency with
    | .found data =>
        { s1 with diary := data.diary, tasks := data.tasks,
                  localCache := some data, loadFailed := false }
    | .missing => { s1 with loadFailed := false }
    | .err e =>
        let s3 :=
          if !hasCache && !loadedFromFirestore then
            { s1 with loadFailed := true }
          else s1
        if isIgnorableError e then s3
        else { s3 with errorLog := s3.errorLog ++ [e] }
  ({ s2 with syncing := false }, settle)

/-- Embeds `retryLoad` (lines 253-276): clears the flag, sets `syncing`,
and issues a bare `getDocFromServer` -- with no `withTimeout` wrapper -- so
the caller settles only when the server read itself settles, after the full
`serverLatency`; on rejection of any kind the flag is raised again. -/
def retryLoad (s : SyncState) (serverRes : ReadResult)
    (serverLatency : Nat) : SyncState × Nat :=
  let s1 := { s with loadFailed := false, syncing := true }
  let s2 :=
    match serverRes with
    | .found data =>
        { s1 with diary := data.diary, tasks := data.tasks,
                  localCache := some data, loadFailed := false }
    | .missing => { s1 with loadFailed := false }
    | .err _ => { s1 with loadFailed := true }
  ({ s2 with syncing := false }, serverLatency)

/-- Settle instant of the bounded remote write inside `saveJournal` (line
181, `await withTimeout(setDoc(docRef, journalData), 3000)`), as a function
of the latency of the underlying `setDoc`. -/
def savePutSettleTime (putLatency : Nat) : Nat :=
  (withTimeout putLatency 3000).1

/-- User-interface events of a run, with the two load-continuation events
that can interleave with them on the event loop: a remote read (the
cache-replica stage, lines 116-123, or the server stage, lines 131-137)
resolving with an existing document. -/
inductive UEvent where
  | diaryChange (newDiary : String)
  | taskAdd (id text : String)
  | taskToggle (taskId : String)
  | taskDelete (taskId : String)
  | force
  | fetchedDoc (fromServer : Bool) (data : JournalEntry)
deriving DecidableEq, Repr

/-- Handler of a remote read resolving with an existing document: both the
cache-replica branch (lines 116-123) and the server branch (lines 131-137)
overwrite the displayed diary and tasks and the local cache entry with the
fetched document, unconditionally; the server branch additionally clears
`loadFailed`. -/
def applyFetchedDoc (s : SyncState) (fromServer : Bool)
    (data : JournalEntry) : SyncState :=
  let s1 := { s with diary := data.diary, tasks := data.tasks,
                     localCache := some data }
  if fromServer then { s1 with loadFailed := false } else s1

/-- Dispatch of one event to its handler. -/
def applyEvent (s : SyncState) : UEvent → SyncState
  | .diaryChange d => handleDiaryChange s d
  | .taskAdd id text => addTask s id text
  | .taskToggle tid => toggleTask s tid
  | .taskDelete tid => deleteTask s tid
  | .force => forceSave s
  | .fetchedDoc b data => applyFetchedDoc s b data

/-- Fires the pending debounce timer if it is due at or before instant `t`:
the event loop runs the `setTimeout` callback of `triggerSave`, which calls
`saveJournal` with the payload captured when the timer was armed. -/
def fireDue (env : Env) (s : SyncState) (t : Nat) : SyncState :=
  match s.pendingTimer with
  | some (ft, d, ts) =>
      if ft ≤ t then
        saveJournal env { s with now := ft, pendingTimer := none } d ts
      else s
  | none => s

/-- Runs a still-pending timer at its fire instant (quiescence at the end
of a trace). -/
def settleTimers (env : Env) (s : SyncState) : SyncState :=
  match s.pendingTimer with
  | some (ft, d, ts) =>
      saveJournal env { s with now := ft, pendingTimer := none } d ts
  | none => s

/-- Discrete-event run: processes timestamped events in order, firing the
debounce timer whenever its deadline falls at or before the next event, and
flushing any remaining timer at the end of the trace. -/
def runEvents (env : Env) (s : SyncState) :
    List (Nat × UEvent) → SyncState
  | [] => settleTimers env s
  | (t, e) :: rest =>
      runEvents env (applyEvent { fireDue env s t with now := t } e) rest

/-- An event is arming when its handler re-arms the debounce timer
(assuming `loadFailed` is clear): every edit except a blank task add, and
the force-save; a resolving fetch never arms. -/
def isArming : UEvent → Bool
  | .diaryChange _ => true
  | .taskAdd _ text => !(text.trim == "")
  | .taskToggle _ => true
  | .taskDelete _ => true
  | .force => true
  | .fetchedDoc _ _ => false

/-- Pure effect of one event on the displayed pair (diary, tasks),
mirroring the display updates of the handlers. -/
def applyEditPure (d : String × List JTask) : UEvent → String × List JTask
  | .diaryChange nd => (nd, d.2)
  | .taskAdd id text =>
      if text.trim = "" then d else (d.1, d.2 ++ [⟨id, text.trim, false⟩])
  | .taskToggle tid =>
      (d.1, d.2.map fun task =>
        if task.id = tid then { task with completed := !task.completed }
        else task)
  | .taskDelete tid => (d.1, d.2.filter fun task => task.id ≠ tid)
  | .force => d
  | .fetchedDoc _ data => (data.diary, data.tasks)

/-- Fire instant of the last flush of an arming-edit trace: each arming
event at instant `t` re-arms the timer to `t + 1000`, so starting from a
timer armed for `ft`, the final flush runs at `ft` if no further event
arrives and at (last event instant + 1000) otherwise. -/
def lastFire : Nat → List Nat → Nat
  | ft, [] => ft
  | _, t :: ts => lastFire (t + 1000) ts

/-- Spacing condition under which no intermediate flush fires: the first
event arrives before the armed deadline `ft`, and each later event within
1000 ms of its predecessor. -/
def goodTimes : Nat → List Nat → Prop
  | _, [] => True
  | ft, t :: ts => t < ft ∧ goodTimes (t + 1000) ts

def goodTimesDec : ∀ ft ts, Decidable (goodTimes ft ts)
  | _, [] => .isTrue trivial
  | _, t :: ts =>
      have h : Decidable (goodTimes (t + 1000) ts) := goodTimesDec (t + 1000) ts
      @instDecidableAnd _ _ _ h

instance (ft : Nat) (ts : List Nat) : Decidable (goodTimes ft ts) :=
  goodTimesDec ft ts

/-! The monthly-tasks widget, `src/components/MonthlyTasks.tsx`, one of the
call sites the spec describes as a small variation of the engine. -/

/-- One entry of `MonthlyTasksData.tasks` in MonthlyTasks.tsx (lines
8-13). -/
structure MonthlyTask where
  id : String
  text : String
  targetCount : Nat
  completedCount : Nat
deriving DecidableEq, Repr

/-- The `MonthlyTasksData` record of MonthlyTasks.tsx (lines 15-18). -/
structure MonthlyTasksData where
  tasks : List MonthlyTask
  updatedAt : Nat
deriving DecidableEq, Repr

/-- State of the monthly-tasks widget: current time, the `tasksData` React
state, and the trace of issued remote `setDoc` calls. The widget keeps no
local cache, no debounce timer, no deadline and no failure flag. -/
structure MTState where
  now : Nat
  tasksData : MonthlyTasksData
  remotePuts : List (Nat × MonthlyTasksData)
deriving DecidableEq, Repr

/-- Embeds `saveTasks(newData)` (MonthlyTasks.tsx lines 65-73): an
immediate `setDoc`, with no debounce, no local-cache write and no deadline;
a rejection is only logged. -/
def mtSaveTasks (s : MTState) (newData : MonthlyTasksData) : MTState :=
  { s with remotePuts := s.remotePuts ++ [(s.now, newData)] }

/-- Embeds `incrementCompleted(taskId)` (lines 99-110): bumps the completed
count of the matching task when below its target, restamps `updatedAt`, and
saves immediately. -/
def mtIncrementCompleted (s : MTState) (taskId : String) : MTState :=
  let newTasks := s.tasksData.tasks.map fun task =>
    if task.id = taskId ∧ task.completedCount < task.targetCount then
      { task with completedCount := task.completedCount + 1 }
    else task
  let newData : MonthlyTasksData := ⟨newTasks, s.now⟩
  mtSaveTasks { s with tasksData := newData } newData

/-- Embeds `loadTasks` (lines 41-62): a single plain `getDoc` with no local
cache paint, no cache-replica stage and no `withTimeout` wrapper -- the
effect settles only at the read's own latency; a missing document yields
the empty default, a rejection is only logged (leaving the previous data).
Returns the resulting `tasksData` and the settle instant. -/
def mtLoadTasks (prev : MonthlyTasksData) (res : Option MonthlyTasksData)
    (failed : Bool) (now latency : Nat) : MonthlyTasksData × Nat :=
  if failed then (prev, latency)
  else
    match res with
    | some d => (d, latency)
    | none => (⟨[], now⟩, latency)

/-- Modelled from the spec: the remote-write trace that section 4.3 and
property P2 of the spec demand of the generalized engine for a rapid edit
burst (consecutive edits less than the 1000 ms idle interval apart) --
exactly one remote write, at (last edit instant + 1000 ms), carrying the
last scheduled payload. A call site refines the engine's debounced writer
only if its put trace for such a burst has this shape. -/
def specCoalescedTrace (lastEditTime : Nat) (payload : MonthlyTasksData) :
    List (Nat × MonthlyTasksData) :=
  [(lastEditTime + 1000, payload)]

/-- Driver for a burst of increment clicks on the monthly-tasks widget. -/
def mtRunIncrements (s : MTState) : List (Nat × String) → MTState
  | [] => s
  | (t, tid) :: rest =>
      mtRunIncrements (mtIncrementCompleted { s with now := t } tid) rest

/-- The whole load lifecycle for a freshly displayed key whose local cache
holds `cache`: the synchronous effect part followed by the background
Firestore fetch (JournalModal.tsx lines 81-160). -/
def runLoad (cache : Option JournalEntry) (replica serverRes : ReadResult)
    (serverLatency : Nat) : SyncState × Nat :=
  let start := loadEffectStart (initState cache) cache
  loadJournal start.1 start.2 replica serverRes serverLatency

/-- The failed-load scenario of spec property P5: empty local cache and a
remote store erroring on both the cache-replica and the server read. -/
def p5State : SyncState :=
  (runLoad none (.err .otherErr) (.err .otherErr) 100).1

/-- Environment whose local store write throws (e.g. quota exceeded) while
the remote store succeeds. -/
def envLocalBroken : Env := ⟨false, fun _ => none⟩

/-! Supporting lemmas shared by the claim theorems. -/

/-- A flush never touches the displayed diary and tasks, the failure flag,
or the (already cleared) timer of the state it runs on. -/
theorem saveJournal_preserved (env : Env) (s : SyncState) (d : String)
    (ts : List JTask) :
    (saveJournal env s d ts).diary = s.diary
      ∧ (saveJournal env s d ts).tasks = s.tasks
      ∧ (saveJournal env s d ts).loadFailed = s.loadFailed
      ∧ (saveJournal env s d ts).pendingTimer = s.pendingTimer := by
  cases h : env.localPutOk <;> simp [saveJournal, h]

/-- When the local store write succeeds, a flush stores the stamped record
in the local cache and issues exactly one remote put carrying it. -/
theorem saveJournal_ok (env : Env) (s : SyncState) (d : String)
    (ts : List JTask) (h : env.localPutOk = true) :
    (saveJournal env s d ts).localCache = some ⟨d, ts, s.now⟩
      ∧ (saveJournal env s d ts).remotePuts
          = s.remotePuts ++ [(s.now, ⟨d, ts, s.now⟩)] := by
  simp [saveJournal, h]

/-- Firing (or not firing) the debounce timer never changes the display or
the failure flag. -/
theorem fireDue_preserved (env : Env) (s : SyncState) (t : Nat) :
    (fireDue env s t).diary = s.diary
      ∧ (fireDue env s t).tasks = s.tasks
      ∧ (fireDue env s t).loadFailed = s.loadFailed := by
  unfold fireDue
  cases hp : s.pendingTimer with
  | none => exact ⟨rfl, rfl, rfl⟩
  | some p =>
      obtain ⟨ft, d, ts⟩ := p
      by_cases hft : ft ≤ t
      · simp only [if_pos hft]
        exact
          (saveJournal_preserved env
            { s with now := ft, pendingTimer := none } d ts).imp id
            fun h2 => ⟨h2.1, h2.2.1⟩
      · simp [if_neg hft]

/-- A timer armed for later than the next event does not fire. -/
theorem fireDue_not_due (env : Env) (s : SyncState) (t ft : Nat)
    (d : String) (ts : List JTask)
    (hp : s.pendingTimer = some (ft, d, ts)) (h : ¬ ft ≤ t) :
    fireDue env s t = s := by
  unfold fireDue
  rw [hp]
  simp [h]

/-- Effect of an arming event on a state whose failure flag is clear: the
timer is (re-)armed for 1000 ms later with exactly the new display as its
payload, the flag stays clear, the display moves by `applyEditPure`, and
the cache, the put trace and the clock are untouched. -/
theorem applyEvent_arming (s : SyncState) (e : UEvent)
    (hA : isArming e = true) (hLF : s.loadFailed = false) :
    (applyEvent s e).pendingTimer
        = some (s.now + 1000, (applyEvent s e).diary, (applyEvent s e).tasks)
      ∧ (applyEvent s e).loadFailed = false
      ∧ ((applyEvent s e).diary, (applyEvent s e).tasks)
          = applyEditPure (s.diary, s.tasks) e
      ∧ (applyEvent s e).localCache = s.localCache
      ∧ (applyEvent s e).remotePuts = s.remotePuts
      ∧ (applyEvent s e).now = s.now := by
  cases e with
  | diaryChange nd =>
      simp [applyEvent, handleDiaryChange, triggerSave, applyEditPure, hLF]
  | taskAdd id text =>
      have htext : ¬ text.trim = "" := by simpa [isArming] using hA
      simp [applyEvent, addTask, triggerSave, applyEditPure, hLF, htext]
  | taskToggle tid =>
      simp [applyEvent, toggleTask, triggerSave, applyEditPure, hLF]
  | taskDelete tid =>
      simp [applyEvent, deleteTask, triggerSave, applyEditPure, hLF]
  | force =>
      simp [applyEvent, forceSave, triggerSave, applyEditPure]
  | fetchedDoc b data =>
      simp [isArming] at hA

/-- Quiescence lemma: starting from a state whose timer is armed with
exactly the current display and whose failure flag is clear, any trace of
arming edits -- with arbitrary spacing and an arbitrary remote put
behaviour -- ends (after the final flush) with the local cache holding
exactly the final display, stamped with the final fire instant, and with
the final display being the pure fold of the edits. -/
theorem runEvents_quiescent_cache (evs : List (Nat × UEvent)) :
    ∀ (env : Env) (s : SyncState) (ft : Nat),
      env.localPutOk = true →
      s.loadFailed = false →
      s.pendingTimer = some (ft, s.diary, s.tasks) →
      (∀ p ∈ evs, isArming p.2 = true) →
      (runEvents env s evs).localCache
          = some ⟨(runEvents env s evs).diary, (runEvents env s evs).tasks,
                  lastFire ft (evs.map Prod.fst)⟩
        ∧ ((runEvents env s evs).diary, (runEvents env s evs).tasks)
            = List.foldl applyEditPure (s.diary, s.tasks)
                (evs.map Prod.snd) := by
  induction evs with
  | nil =>
      intro env s ft hEnv hLF hPT _
      simp only [runEvents, settleTimers]
      rw [hPT]
      have hps := saveJournal_preserved env
        { s with now := ft, pendingTimer := none } s.diary s.tasks
      have hok := saveJournal_ok env
        { s with now := ft, pendingTimer := none } s.diary s.tasks hEnv
      refine ⟨?_, ?_⟩
      · rw [hok.1, hps.1, hps.2.1]
        rfl
      · rw [hps.1, hps.2.1]
        rfl
  | cons p rest ih =>
      intro env s ft hEnv hLF hPT hA
      obtain ⟨t, e⟩ := p
      have hA0 : isArming e = true := hA (t, e) (List.mem_cons_self _ _)
      have hArest : ∀ q ∈ rest, isArming q.2 = true := fun q hq =>
        hA q (List.mem_cons_of_mem _ hq)
      simp only [runEvents]
      have hpre := fireDue_preserved env s t
      have hLF1 : ({ fireDue env s t with now := t } : SyncState).loadFailed
          = false := by
        show (fireDue env s t).loadFailed = false
        rw [hpre.2.2]; exact hLF
      have harm := applyEvent_arming { fireDue env s t with now := t } e
        hA0 hLF1
      have ih2 := ih env (applyEvent { fireDue env s t with now := t } e)
        (t + 1000) hEnv harm.2.1 harm.1 hArest
      have hd : ((applyEvent { fireDue env s t with now := t } e).diary,
                 (applyEvent { fireDue env s t with now := t } e).tasks)
          = applyEditPure (s.diary, s.tasks) e := by
        rw [harm.2.2.1]
        show applyEditPure ((fireDue env s t).diary, (fireDue env s t).tasks) e
          = applyEditPure (s.diary, s.tasks) e
        rw [hpre.1, hpre.2.1]
      refine ⟨?_, ?_⟩
      · rw [ih2.1]
        rfl
      · rw [ih2.2, hd]
        rfl

/-- Coalescing lemma: starting from a state whose timer is armed with
exactly the current display and whose failure flag is clear, a trace of
arming edits that keeps re-arming the timer before it fires (the first
event before the armed deadline, each later event within 1000 ms of its
predecessor) issues exactly one remote put: at the final fire instant,
carrying the final display. -/
theorem runEvents_coalesce (evs : List (Nat × UEvent)) :
    ∀ (env : Env) (s : SyncState) (ft : Nat),
      env.localPutOk = true →
      s.loadFailed = false →
      s.pendingTimer = some (ft, s.diary, s.tasks) →
      (∀ p ∈ evs, isArming p.2 = true) →
      goodTimes ft (evs.map Prod.fst) →
      (runEvents env s evs).remotePuts
          = s.remotePuts
              ++ [(lastFire ft (evs.map Prod.fst),
                   ⟨(runEvents env s evs).diary, (runEvents env s evs).tasks,
                    lastFire ft (evs.map Prod.fst)⟩)]
        ∧ ((runEvents env s evs).diary, (runEvents env s evs).tasks)
            = List.foldl applyEditPure (s.diary, s.tasks)
                (evs.map Prod.snd) := by
  induction evs with
  | nil =>
      intro env s ft hEnv hLF hPT _ _
      simp only [runEvents, settleTimers]
      rw [hPT]
      have hps := saveJournal_preserved env
        { s with now := ft, pendingTimer := none } s.diary s.tasks
      have hok := saveJournal_ok env
        { s with now := ft, pendingTimer := none } s.diary s.tasks hEnv
      refine ⟨?_, ?_⟩
      · rw [hok.2, hps.1, hps.2.1]
        rfl
      · rw [hps.1, hps.2.1]
        rfl
  | cons p rest ih =>
      intro env s ft hEnv hLF hPT hA hG
      obtain ⟨t, e⟩ := p
      have hA0 : isArming e = true := hA (t, e) (List.mem_cons_self _ _)
      have hArest : ∀ q ∈ rest, isArming q.2 = true := fun q hq =>
        hA q (List.mem_cons_of_mem _ hq)
      obtain ⟨hlt, hGrest⟩ := hG
      have hnofire : fireDue env s t = s :=
        fireDue_not_due env s t ft s.diary s.tasks hPT (Nat.not_le.mpr hlt)
      simp only [runEvents, hnofire]
      have hLF1 : ({ s with now := t } : SyncState).loadFailed = false := hLF
      have harm := applyEvent_arming { s with now := t } e hA0 hLF1
      have ih2 := ih env (applyEvent { s with now := t } e)
        (t + 1000) hEnv harm.2.1 harm.1 hArest hGrest
      have hd : ((applyEvent { s with now := t } e).diary,
                 (applyEvent { s with now := t } e).tasks)
          = applyEditPure (s.diary, s.tasks) e := harm.2.2.1
      refine ⟨?_, ?_⟩
      · rw [ih2.1, harm.2.2.2.2.1]
        rfl
      · rw [ih2.2, hd]
        rfl

/-! Claim theorems. -/

/-- C1, counterexample: the claim says each edit synchronously overwrites
the local cache before anything else happens, so that after the last
`edit()` call returns the cache already reflects it. On the code, an edit
only updates the display and re-arms the 1000 ms debounce timer: at the
instant `handleDiaryChange` returns, the local cache still holds the old
entry, not the just-applied edit. -/
theorem c1_counterexample :
    (handleDiaryChange (initState (some ⟨"old", [], 0⟩)) "x").localCache
        = some ⟨"old", [], 0⟩
      ∧ ("old" : String) ≠ "x"
      ∧ (handleDiaryChange (initState (some ⟨"old", [], 0⟩)) "x").diary
          = "x" :=
  ⟨rfl, by decide, rfl⟩

/-- C1, amended: for any sequence of edit calls on the key (diary change,
task add/toggle/delete, each of which re-arms the debounce timer), once the
final debounce flush has fired, the local cache entry holds exactly the
state produced by the last-applied edit (stamped with the final fire
instant), independent of the remote store's put behaviour -- the flush
writes the local cache synchronously before issuing the remote write and
swallows every remote error. The cache write happens at flush time, not
synchronously inside the edit call. -/
theorem c1_theorem (env : Env) (cache : Option JournalEntry) (t0 : Nat)
    (e0 : UEvent) (rest : List (Nat × UEvent))
    (hEnv : env.localPutOk = true) (hA0 : isArming e0 = true)
    (hA : ∀ p ∈ rest, isArming p.2 = true) :
    (runEvents env (initState cache) ((t0, e0) :: rest)).localCache
        = some ⟨(runEvents env (initState cache) ((t0, e0) :: rest)).diary,
                (runEvents env (initState cache) ((t0, e0) :: rest)).tasks,
                lastFire (t0 + 1000) (rest.map Prod.fst)⟩
      ∧ ((runEvents env (initState cache) ((t0, e0) :: rest)).diary,
         (runEvents env (initState cache) ((t0, e0) :: rest)).tasks)
          = List.foldl applyEditPure ("", [])
              (((t0, e0) :: rest).map Prod.snd) := by
  have hfire : fireDue env (initState cache) t0 = initState cache := rfl
  have hLF1 : ({ fireDue env (initState cache) t0 with now := t0 }
      : SyncState).loadFailed = false := rfl
  have harm := applyEvent_arming
    { fireDue env (initState cache) t0 with now := t0 } e0 hA0 hLF1
  have key := runEvents_quiescent_cache rest env
    (applyEvent { fireDue env (initState cache) t0 with now := t0 } e0)
    (t0 + 1000) hEnv harm.2.1 harm.1 hA
  have hd : ((applyEvent { fireDue env (initState cache) t0 with
                now := t0 } e0).diary,
             (applyEvent { fireDue env (initState cache) t0 with
                now := t0 } e0).tasks)
      = applyEditPure ("", []) e0 := harm.2.2.1
  simp only [runEvents]
  refine ⟨key.1, ?_⟩
  rw [key.2, hd]
  rfl

/-- Witness for C1: a single diary edit at t = 0 in the always-succeeding
environment; after the flush at t = 1000 the local cache holds exactly the
edited record. -/
theorem c1_witness :
    envOk.localPutOk = true
      ∧ isArming (UEvent.diaryChange "x") = true
      ∧ (runEvents envOk (initState none)
            [(0, UEvent.diaryChange "x")]).localCache
          = some ⟨"x", [], 1000⟩ :=
  ⟨rfl, rfl,
    ((c1_theorem envOk none 0 (.diaryChange "x") [] rfl rfl
      (by simp)).1).trans rfl⟩

/-- C2: a burst of arming edits in which the first arrives before the armed
deadline and each later one within 1000 ms of its predecessor re-arms the
single debounce timer each time, and exactly one remote write is issued: at
(last edit instant + 1000 ms), carrying the record state as of the last
edit. -/
theorem c2_theorem (env : Env) (cache : Option JournalEntry) (t0 : Nat)
    (e0 : UEvent) (rest : List (Nat × UEvent))
    (hEnv : env.localPutOk = true) (hA0 : isArming e0 = true)
    (hA : ∀ p ∈ rest, isArming p.2 = true)
    (hG : goodTimes (t0 + 1000) (rest.map Prod.fst)) :
    (runEvents env (initState cache) ((t0, e0) :: rest)).remotePuts
        = [(lastFire (t0 + 1000) (rest.map Prod.fst),
            ⟨(runEvents env (initState cache) ((t0, e0) :: rest)).diary,
             (runEvents env (initState cache) ((t0, e0) :: rest)).tasks,
             lastFire (t0 + 1000) (rest.map Prod.fst)⟩)]
      ∧ ((runEvents env (initState cache) ((t0, e0) :: rest)).diary,
         (runEvents env (initState cache) ((t0, e0) :: rest)).tasks)
          = List.foldl applyEditPure ("", [])
              (((t0, e0) :: rest).map Prod.snd) := by
  have hLF1 : ({ fireDue env (initState cache) t0 with now := t0 }
      : SyncState).loadFailed = false := rfl
  have harm := applyEvent_arming
    { fireDue env (initState cache) t0 with now := t0 } e0 hA0 hLF1
  have key := runEvents_coalesce rest env
    (applyEvent { fireDue env (initState cache) t0 with now := t0 } e0)
    (t0 + 1000) hEnv harm.2.1 harm.1 hA hG
  have hd : ((applyEvent { fireDue env (initState cache) t0 with
                now := t0 } e0).diary,
             (applyEvent { fireDue env (initState cache) t0 with
                now := t0 } e0).tasks)
      = applyEditPure ("", []) e0 := harm.2.2.1
  simp only [runEvents]
  constructor
  · rw [key.1, harm.2.2.2.2.1]
    rfl
  · rw [key.2, hd]
    rfl

/-- Witness for C2, the scenario named by the claim: diary edits at
t = 0, 200, 400, 600 ms; exactly one remote write is issued, at
t = 1600 ms, containing the record state as of the t = 600 edit. -/
theorem c2_witness :
    envOk.localPutOk = true
      ∧ goodTimes (0 + 1000) [200, 400, 600]
      ∧ (runEvents envOk (initState none)
            [(0, UEvent.diaryChange "a"), (200, UEvent.diaryChange "b"),
             (400, UEvent.diaryChange "c"),
             (600, UEvent.diaryChange "d")]).remotePuts
          = [(1600, ⟨"d", [], 1600⟩)] :=
  ⟨rfl, by decide,
    ((c2_theorem envOk none 0 (.diaryChange "a")
      [(200, .diaryChange "b"), (400, .diaryChange "c"),
       (600, .diaryChange "d")] rfl rfl (by decide) (by decide)).1).trans
      rfl⟩

/-- C3, counterexample: the claim says every server read issued during the
load lifecycle, including the retry action's server-only read, is raced
against the 3000 ms deadline. `retryLoad` issues a bare `getDocFromServer`
with no `withTimeout` wrapper: with a 5000 ms server read it settles only
at 5000 ms, past the deadline. -/
theorem c3_counterexample :
    (retryLoad (initState none) (.err .offline) 5000).2 = 5000
      ∧ ¬ (5000 : Nat) ≤ 3000 :=
  ⟨rfl, by decide⟩

/-- C3, amended: the server read of the initial load effect and the server
write during save are each raced against the fixed 3000 ms deadline, so
their callers settle within it whatever the underlying latency; the retry
action's server-only read, however, is not wrapped in the deadline and
settles only at the read's own latency. -/
theorem c3_theorem (s : SyncState) (hasCache : Bool)
    (replica serverRes : ReadResult) (lat putLat : Nat) :
    (loadJournal s hasCache replica serverRes lat).2 ≤ 3000
      ∧ savePutSettleTime putLat ≤ 3000
      ∧ (retryLoad s serverRes lat).2 = lat :=
  ⟨Nat.min_le_right lat 3000, Nat.min_le_right putLat 3000, rfl⟩

/-- C4, counterexample: the claim says the state ends as `LoadFailed`
exactly when the remote fetch fails with a NON-ignorable error (and no data
source succeeded). With an empty local cache, a missing replica document
and a server read rejecting with the ignorable offline error, the code
still raises `loadFailed` -- the catch block at lines 146-148 tests only
`hasCache` and `loadedFromFirestore`, not `isIgnorableError`. -/
theorem c4_counterexample :
    ((runLoad none .missing (.err .offline) 100).1).loadFailed = true
      ∧ isIgnorableError .offline = true :=
  ⟨rfl, rfl⟩

/-- C4, amended: after a load, the state ends as `LoadFailed` exactly when
the raced server read fails with ANY error -- ignorable (timeout, offline)
or not -- and neither the local cache nor the remote cache-replica nor the
server produced data; ignorability only controls whether the error is
logged. If any cache hit (local or remote-replica) already succeeded, a
later server error settles silently to `Synced`. In particular, with an
empty local cache and a remote store erroring on both reads, the state ends
as `LoadFailed`. -/
theorem c4_theorem (cache : Option JournalEntry)
    (replica serverRes : ReadResult) (lat : Nat) :
    ((runLoad cache replica serverRes lat).1).loadFailed
      = ((serverEffective serverRes lat).isErr
          && !(loadEffectStart (initState cache) cache).2
          && !replica.isFound) := by
  cases cache <;> cases replica <;>
    · rcases h : serverEffective serverRes lat with _ | _ | k
      all_goals
        simp only [runLoad, loadJournal, loadEffectStart, initState,
          ReadResult.isFound, ReadResult.isErr, h]
      all_goals first
        | rfl
        | (cases k <;> rfl)

/-- C5, counterexample: the claim says the force-save flush bypasses the
debounce timer (a `flushNow`, not a 1000 ms deferred flush). In the
failed-load scenario, at the instant `forceSave` returns after an edit, no
remote put has been issued and a fresh 1000 ms debounce timer is pending:
the code routes `forceSave` through `triggerSave`. -/
theorem c5_counterexample :
    p5State.loadFailed = true
      ∧ (applyEvent { handleDiaryChange { p5State with now := 0 } "x" with
            now := 500 } UEvent.force).remotePuts = []
      ∧ (applyEvent { handleDiaryChange { p5State with now := 0 } "x" with
            now := 500 } UEvent.force).pendingTimer
          = some (1500, "x", []) :=
  ⟨rfl, rfl, rfl⟩

/-- C5, amended: in the failed-load scenario, an edit (which, under
`loadFailed`, does not arm the writer) followed by `forceSave` clears the
failed-load flag and produces exactly one remote put containing the edited
record, regardless of the prior `LoadFailed` state -- but the flush is the
ordinary debounced one, issued 1000 ms after the force-save, not an
immediate bypass. -/
theorem c5_theorem (d : String) :
    p5State.loadFailed = true
      ∧ (runEvents envOk (handleDiaryChange { p5State with now := 0 } d)
            [(500, UEvent.force)]).remotePuts
          = [(1500, ⟨d, [], 1500⟩)] :=
  ⟨rfl, rfl⟩

/-- C6, counterexample: the claim says that whenever `load(key)` runs for a
new period, the previous key's pending debounce timer is cancelled. The
load effect (lines 81-160) never touches `saveTimerRef`: a pending timer
survives the period change unchanged. -/
theorem c6_counterexample :
    ((loadEffectStart { initState none with
          pendingTimer := some (1500, "p", []) } none).1).pendingTimer
        = some (1500, "p", [])
      ∧ some (1500, "p", ([] : List JTask)) ≠ none :=
  ⟨rfl, by decide⟩

/-- C6, amended: on a period change the local display is cleared (then
repainted from the new key's local cache) and the failure flag reset before
the new load proceeds, but the previous key's pending debounce timer is NOT
cancelled there -- it is cancelled only by the unmount cleanup effect
(closing the journal view). -/
theorem c6_theorem (s : SyncState) (cached : Option JournalEntry) :
    ((loadEffectStart s cached).1).pendingTimer = s.pendingTimer
      ∧ (((loadEffectStart s cached).1).diary,
         ((loadEffectStart s cached).1).tasks)
          = (match cached with
             | none => ("", ([] : List JTask))
             | some c => (c.diary, c.tasks))
      ∧ ((loadEffectStart s cached).1).loadFailed = false
      ∧ (unmountCleanup s).pendingTimer = none := by
  cases cached <;> simp [loadEffectStart, unmountCleanup]

/-- C7, counterexample: the claim says a failed local-store write never
blocks the surrounding save and the flush still attempts the remote write.
With a throwing `localStorage.setItem` (quota exceeded), the flush of an
edit issues NO remote put and the async save rejects: `saveToLocalCache`
runs at line 174 outside the try block. -/
theorem c7_counterexample :
    (runEvents envLocalBroken (initState none)
        [(0, UEvent.diaryChange "x")]).remotePuts = []
      ∧ (runEvents envLocalBroken (initState none)
          [(0, UEvent.diaryChange "x")]).flushAborted = true :=
  ⟨rfl, rfl⟩

/-- C7, amended: a flush attempts the remote write and overwrites the local
cache exactly when the local-store write succeeds; when the local write
throws, the flush aborts before the remote write is attempted and the
surrounding async save fails (an unhandled rejection). Only local READ
failures (missing or malformed cache content) are swallowed. -/
theorem c7_theorem (env : Env) (s : SyncState) (d : String)
    (ts : List JTask) :
    (saveJournal env s d ts).remotePuts
        = (if env.localPutOk then s.remotePuts ++ [(s.now, ⟨d, ts, s.now⟩)]
           else s.remotePuts)
      ∧ (saveJournal env s d ts).flushAborted
          = (if env.localPutOk then s.flushAborted else true)
      ∧ (saveJournal env s d ts).localCache
          = (if env.localPutOk then some ⟨d, ts, s.now⟩ else s.localCache) := by
  cases h : env.localPutOk <;> simp [saveJournal, h]

/-- C8: during load, if the remote cache-replica read returns a present
document and the server read then completes within the 3000 ms deadline
with a present document, the server's document supersedes the replica's:
it is what ends up displayed and written to the local cache. -/
theorem c8_theorem (cache : Option JournalEntry) (d1 d2 : JournalEntry)
    (lat : Nat) (hLat : lat ≤ 3000) :
    ((runLoad cache (.found d1) (.found d2) lat).1).diary = d2.diary
      ∧ ((runLoad cache (.found d1) (.found d2) lat).1).tasks = d2.tasks
      ∧ ((runLoad cache (.found d1) (.found d2) lat).1).localCache
          = some d2 := by
  cases cache <;>
    simp [runLoad, loadJournal, loadEffectStart, initState, serverEffective,
      hLat]

/-- Witness for C8: replica document with diary "one", server document with
diary "two" arriving at 100 ms (within the deadline); the final displayed
and cached record is the server's. -/
theorem c8_witness :
    (100 : Nat) ≤ 3000
      ∧ ((runLoad (some ⟨"c", [], 0⟩) (.found ⟨"one", [], 1⟩)
            (.found ⟨"two", [], 2⟩) 100).1).diary = "two"
      ∧ ((runLoad (some ⟨"c", [], 0⟩) (.found ⟨"one", [], 1⟩)
            (.found ⟨"two", [], 2⟩) 100).1).localCache
          = some ⟨"two", [], 2⟩ :=
  ⟨by decide,
    (c8_theorem (some ⟨"c", [], 0⟩) ⟨"one", [], 1⟩ ⟨"two", [], 2⟩ 100
      (by decide)).1,
    (c8_theorem (some ⟨"c", [], 0⟩) ⟨"one", [], 1⟩ ⟨"two", [], 2⟩ 100
      (by decide)).2.2⟩

/-- C9, counterexample: the claim says each widget's load/save behaviour
refines the generalized engine (debounced coalesced remote writes among its
obligations). For a burst of increment clicks at t = 0, 200, 400, 600 ms,
the monthly-tasks widget issues four remote puts, one immediately at each
click, while any refinement of the engine's debounced writer issues the
single coalesced put of the spec's P2 trace at t = 1600 ms. -/
theorem c9_counterexample :
    (mtRunIncrements ⟨0, ⟨[⟨"a", "t", 10, 0⟩], 0⟩, []⟩
        [(0, "a"), (200, "a"), (400, "a"), (600, "a")]).remotePuts.map
        Prod.fst
      = [0, 200, 400, 600]
      ∧ (specCoalescedTrace 600 ⟨[], 0⟩).map Prod.fst = [1600]
      ∧ ([0, 200, 400, 600] : List Nat) ≠ [1600] :=
  ⟨rfl, rfl, by decide⟩

set_option maxRecDepth 10000 in
/-- C9, amended: only the journal widget implements the generalized engine.
The journal widget's debounced writer does satisfy the engine's coalescing
obligation (one put at last-edit + 1000 ms for a rapid burst), but the
monthly-tasks widget (like the tracker and graph widgets) performs one
immediate remote put per edit -- no local cache, no debounce, no deadline
-- so its save behaviour does not refine the engine; the call sites share
only the per-period remote document layout and log-and-continue error
handling. -/
theorem c9_theorem (mt : MTState) (burst : List (Nat × String))
    (d1 d2 d3 d4 : String) :
    (mtRunIncrements mt burst).remotePuts.length
        = mt.remotePuts.length + burst.length
      ∧ (runEvents envOk (initState none)
            [(0, UEvent.diaryChange d1), (200, UEvent.diaryChange d2),
             (400, UEvent.diaryChange d3),
             (600, UEvent.diaryChange d4)]).remotePuts.map Prod.fst
          = (specCoalescedTrace 600 ⟨[], 0⟩).map Prod.fst := by
  constructor
  · induction burst generalizing mt with
    | nil => simp [mtRunIncrements]
    | cons q rest ih =>
        obtain ⟨t, tid⟩ := q
        simp only [mtRunIncrements]
        rw [ih]
        simp [mtIncrementCompleted, mtSaveTasks]
        omega
  · rfl

/-- C10 (implicit): if the user edits the record while the initial remote
fetch for the same key is in flight and a remote read (cache-replica or
server) then resolves with an existing document, the fetched document
unconditionally replaces both the displayed record and the local cache
entry, discarding the not-yet-flushed in-flight edit from display. -/
theorem c10_theorem (s : SyncState) (p : String) (data : JournalEntry)
    (fromServer : Bool) :
    (applyFetchedDoc (handleDiaryChange s p) fromServer data).diary
        = data.diary
      ∧ (applyFetchedDoc (handleDiaryChange s p) fromServer data).tasks
          = data.tasks
      ∧ (applyFetchedDoc (handleDiaryChange s p) fromServer data).localCache
          = some data := by
  cases fromServer <;> exact ⟨rfl, rfl, rfl⟩
